import Mathlib

/-!
Verification of the layout engine's size-resolution and flex-alignment core.

The definitions below are a shallow embedding of the TypeScript sources:
`src/controllers/SizeController.ts` (class `SizeController`), the
`FlexAlignController` in the same file, and `Layout.float` from the sibling
`Layout` class.  JavaScript numbers are modelled as rationals (`ℚ`); note that
in `ℚ` a division by zero yields `0`, where IEEE arithmetic would give an
infinity or NaN — every statement proved here avoids depending on a division
by zero except where noted.
-/

namespace LayoutVerify

/-- Value of a `FlexNumber` style attribute: absolute pixels or a percentage
string such as `"50%"` (stored as the percentage amount). -/
inductive FlexNumber
  | px (n : ℚ)
  | percent (p : ℚ)
deriving DecidableEq

/-- Value of a width/height style attribute: `'auto'`, absolute pixels, or a
percentage of the parent dimension. -/
inductive Dim
  | auto
  | px (n : ℚ)
  | percent (p : ℚ)
deriving DecidableEq

/-- Modelled from the spec: `getNumber` lives in `src/utils/helpers.ts`, which
is absent from the sources.  Per the spec, an absolute pixel value passes
through unchanged and a percentage resolves to that fraction of the parent
dimension (`"50%"` under `availableWidth = 200` resolves to `100`); numeric
coercion is total, defaulting to `0`. -/
def getNumber : Dim → ℚ → ℚ
  | .auto, _ => 0
  | .px n, _ => n
  | .percent p, parent => p / 100 * parent

/-- Modelled from the spec: `getNumber` applied to an optional max-size
attribute (absent from `src/utils/helpers.ts`); an unset attribute coerces
to `0`. -/
def getNumberOpt : Option FlexNumber → ℚ → ℚ
  | none, _ => 0
  | some (.px n), _ => n
  | some (.percent p), parent => p / 100 * parent

/-- JavaScript truthiness of an optional `FlexNumber` style attribute, as used
by the guard `if (maxWidth || maxHeight)`: `undefined` and the number `0` are
falsy; any percentage string (a non-empty string) is truthy. -/
def flexTruthy : Option FlexNumber → Bool
  | none => false
  | some (.px n) => if n = 0 then false else true
  | some (.percent _) => true

/-- Style attributes of a node that are read by `SizeController.update` and
`SizeController.fitToSize`. -/
structure Style where
  width : Dim
  height : Dim
  maxWidth : Option FlexNumber
  maxHeight : Option FlexNumber
  scaleX : ℚ
  scaleY : ℚ
  paddingLeft : ℚ
  paddingRight : ℚ
  paddingTop : ℚ
  paddingBottom : ℚ
  marginLeft : ℚ
  marginRight : ℚ
  marginTop : ℚ
  marginBottom : ℚ
deriving DecidableEq

/-- Embedding of `SizeController.fitToSize` (SizeController.ts lines 241-271).
`layoutW`/`layoutH` are the resolved (unscaled) layout dimensions read through
`this.layout.width`/`.height`, and `currentScaleX`/`currentScaleY` are the
scale values just set from the style at line 152.  The source ends with
`this.layout.scale.set(Math.min(finalScaleX, finalScaleY))`, which assigns the
single returned value to both axes. -/
def fitToSize (st : Style) (parentWidth parentHeight layoutW layoutH
    currentScaleX currentScaleY : ℚ) : ℚ :=
  let layoutWidth := layoutW + st.marginLeft + st.marginRight
  let layoutHeight := layoutH + st.marginTop + st.marginBottom
  let maxWidthVal := getNumberOpt st.maxWidth parentWidth
  let maxHeightVal := getNumberOpt st.maxHeight parentHeight
  let fitScaleX := maxWidthVal / layoutWidth
  let fitScaleY := maxHeightVal / layoutHeight
  let finalScaleX := if layoutWidth * currentScaleX > maxWidthVal then fitScaleX else currentScaleX
  let finalScaleY := if layoutHeight * currentScaleY > maxHeightVal then fitScaleY else currentScaleY
  min finalScaleX finalScaleY

/-- Formalisation of the specification's own fit-to-size formula, for
comparison with the source: `boxWidth = width*scaleX + marginLeft +
marginRight`, `fitScaleX = maxWidth/boxWidth` considered only when `boxWidth`
exceeds `maxWidth` (likewise for the height axis), final applied scale for
both axes the minimum of the two candidates. -/
def fitToSizeClaim (st : Style) (parentWidth parentHeight w h sx sy : ℚ) : ℚ :=
  let boxWidth := w * sx + st.marginLeft + st.marginRight
  let boxHeight := h * sy + st.marginTop + st.marginBottom
  let maxWidthVal := getNumberOpt st.maxWidth parentWidth
  let maxHeightVal := getNumberOpt st.maxHeight parentHeight
  let candX := if boxWidth > maxWidthVal then maxWidthVal / boxWidth else sx
  let candY := if boxHeight > maxHeightVal then maxHeightVal / boxHeight else sy
  min candX candY

/-- A style with no margins or paddings, fixed auto dimensions, used for
concrete evaluations. -/
def mkMaxStyle (mw mh : Option FlexNumber) (sx sy : ℚ) : Style :=
  { width := .auto, height := .auto, maxWidth := mw, maxHeight := mh
    scaleX := sx, scaleY := sy
    paddingLeft := 0, paddingRight := 0, paddingTop := 0, paddingBottom := 0
    marginLeft := 0, marginRight := 0, marginTop := 0, marginBottom := 0 }

/-- C1 counterexample: at resolved width 100, height 10, margins 0, current
scale (2,2), `maxWidth = 150px`, `maxHeight = 10000px`, the source computes
`fitScaleX = maxWidth / (width + margins) = 150/100 = 3/2` (the current scale
does not enter the denominator) and applies `3/2`, while the claim's formula
`fitScaleX = maxWidth / (width*scaleX + margins) = 150/200` would apply `3/4`:
the claim's fit-to-size formula does not match the code when scale is not 1. -/
theorem fitToSize_claim_counterexample :
    fitToSize (mkMaxStyle (some (.px 150)) (some (.px 10000)) 2 2) 1000 1000 100 10 2 2
      = 3 / 2 ∧
    fitToSizeClaim (mkMaxStyle (some (.px 150)) (some (.px 10000)) 2 2) 1000 1000 100 10 2 2
      = 3 / 4 ∧
    fitToSize (mkMaxStyle (some (.px 150)) (some (.px 10000)) 2 2) 1000 1000 100 10 2 2
      ≠ fitToSizeClaim (mkMaxStyle (some (.px 150)) (some (.px 10000)) 2 2) 1000 1000 100 10 2 2 := by
  refine ⟨?_, ?_, ?_⟩ <;>
    · simp only [fitToSize, fitToSizeClaim, mkMaxStyle, getNumberOpt]
      norm_num

/-- C1 amended: the fit-to-size step computes `fitScaleX = maxWidth /
(width + marginLeft + marginRight)` — the current scale does not enter the
denominator — considered only when `(width + margins) * scaleX` exceeds
`maxWidth` (likewise for the height axis, otherwise the candidate is the
current per-axis scale), and applies the minimum of the two candidates to
both axes; under positive boxes this never scales above either current axis
scale, and the resolved box 300x100 with `maxWidth = 150`, `maxHeight = 100`,
scale `(1,1)` ends with scale `1/2` on both axes. -/
theorem fitToSize_amended (st : Style) (pW pH w h sx sy : ℚ)
    (hw : 0 < w + st.marginLeft + st.marginRight)
    (hh : 0 < h + st.marginTop + st.marginBottom) :
    fitToSize st pW pH w h sx sy =
      min (if (w + st.marginLeft + st.marginRight) * sx > getNumberOpt st.maxWidth pW then
             getNumberOpt st.maxWidth pW / (w + st.marginLeft + st.marginRight) else sx)
          (if (h + st.marginTop + st.marginBottom) * sy > getNumberOpt st.maxHeight pH then
             getNumberOpt st.maxHeight pH / (h + st.marginTop + st.marginBottom) else sy) ∧
    fitToSize st pW pH w h sx sy ≤ sx ∧
    fitToSize st pW pH w h sx sy ≤ sy ∧
    fitToSize (mkMaxStyle (some (.px 150)) (some (.px 100)) 1 1) 1000 1000 300 100 1 1
      = 1 / 2 := by
  refine ⟨rfl, ?_, ?_, ?_⟩
  · refine le_trans (min_le_left _ _) ?_
    dsimp only
    split
    · rename_i htr
      rw [div_le_iff₀ hw]
      linarith [htr, mul_comm sx (w + st.marginLeft + st.marginRight)]
    · exact le_rfl
  · refine le_trans (min_le_right _ _) ?_
    dsimp only
    split
    · rename_i htr
      rw [div_le_iff₀ hh]
      linarith [htr, mul_comm sy (h + st.marginTop + st.marginBottom)]
    · exact le_rfl
  · simp only [fitToSize, mkMaxStyle, getNumberOpt]
    norm_num

/-- Witness for `fitToSize_amended` at the spec's concrete instance. -/
theorem fitToSize_amended_witness :
    fitToSize (mkMaxStyle (some (.px 150)) (some (.px 100)) 1 1) 1000 1000 300 100 1 1 ≤ 1 :=
  (fitToSize_amended (mkMaxStyle (some (.px 150)) (some (.px 100)) 1 1) 1000 1000 300 100 1 1
    (by norm_num [mkMaxStyle]) (by norm_num [mkMaxStyle])).2.1

/-- The auto-size mode selected by `SizeController.sizeControlType`
(SizeController.ts lines 166-181); the selection depends on the tree shape
(single `Text` child, background kind, `display`), which is fixed for a given
unmodified tree, so it enters the model as an input. -/
inductive SizeControl
  | innerText
  | stickToBackground
  | fitToParent
deriving DecidableEq

/-- Mutable state of the inner `Text` object that `SizeController.update`
reads and writes: the `wordWrap` flag and the `wordWrapWidth`. -/
structure TextState where
  wordWrap : Bool
  wordWrapWidth : ℚ
deriving DecidableEq

/-- The external text-measurement provider: intrinsic width and height of the
inner text as a deterministic function of its wrap state (the text content and
the remaining text style are fixed for a given tree). -/
structure TextMeasure where
  width : TextState → ℚ
  height : TextState → ℚ

/-- State owned by a node that persists between `update` calls: visibility,
the stored `_width`/`_height`, the current scale, and the inner text state. -/
structure NodeState where
  visible : Bool
  w : ℚ
  h : ℚ
  sx : ℚ
  sy : ℚ
  text : TextState
deriving DecidableEq

/-- Result of one `SizeController.update` call: the node state afterwards and
whether the call reached `this.layout.align.update(...)` (line 162) instead of
returning early. -/
structure UpdateOut where
  state : NodeState
  alignCalled : Bool
deriving DecidableEq

/-- Embedding of the word-wrap side effect of `SizeController.update`
(SizeController.ts lines 66-74): if the text is not wrapping and its width
reaches the available width, enable wrapping; if wrapping, set the wrap width
to the available width. -/
def wrapText (measureW : TextState → ℚ) (avail : ℚ) (t : TextState) : TextState :=
  let t1 := if t.wordWrap = false ∧ measureW t ≥ avail then { t with wordWrap := true } else t
  if t1.wordWrap then { t1 with wordWrapWidth := avail } else t1

/-- Text mutation performed by the `auto`-width `innerText` branch of
`SizeController.update`; in every other branch the text state is untouched. -/
def updateText (m : TextMeasure) (st : Style) (mode : SizeControl)
    (parentWidth : ℚ) (t : TextState) : TextState :=
  match st.width, mode with
  | .auto, .innerText => wrapText m.width (parentWidth - st.paddingLeft - st.paddingRight) t
  | _, _ => t

/-- Resolved width before parent-padding subtraction and clamping
(SizeController.ts lines 60-105), as a function of the post-mutation text
state. -/
def resolveWidth (m : TextMeasure) (bgW : ℚ) (st : Style) (mode : SizeControl)
    (parentWidth : ℚ) (t : TextState) : ℚ :=
  match st.width, mode with
  | .auto, .innerText => m.width t + st.paddingRight + st.paddingLeft
  | .auto, .stickToBackground => bgW
  | .auto, .fitToParent => parentWidth
  | d, _ => getNumber d parentWidth

/-- Resolved height before parent-padding subtraction and clamping
(SizeController.ts lines 107-129); in `fitToParent` mode an `auto` height has
no rule and `finalHeight` stays `0`. -/
def resolveHeight (m : TextMeasure) (bgH : ℚ) (st : Style) (mode : SizeControl)
    (parentHeight : ℚ) (t : TextState) : ℚ :=
  match st.height, mode with
  | .auto, .innerText => m.height t + st.paddingBottom + st.paddingTop
  | .auto, .stickToBackground => bgH
  | .auto, .fitToParent => 0
  | d, _ => getNumber d parentHeight

/-- Subtraction of the parent layout's `padding` shorthand
(SizeController.ts lines 131-137). -/
def subParentPadding (parentPadding : Option ℚ) (x : ℚ) : ℚ :=
  match parentPadding with
  | some p => x - p
  | none => x

/-- Clamp of a negative resolved dimension to `0`
(SizeController.ts lines 139-140). -/
def clampNeg (x : ℚ) : ℚ :=
  if x < 0 then 0 else x

/-- Final resolved width of one `update` call. -/
def finalWidth (m : TextMeasure) (bgW : ℚ) (st : Style) (mode : SizeControl)
    (parentPadding : Option ℚ) (parentWidth : ℚ) (t : TextState) : ℚ :=
  clampNeg (subParentPadding parentPadding (resolveWidth m bgW st mode parentWidth t))

/-- Final resolved height of one `update` call. -/
def finalHeight (m : TextMeasure) (bgH : ℚ) (st : Style) (mode : SizeControl)
    (parentPadding : Option ℚ) (parentHeight : ℚ) (t : TextState) : ℚ :=
  clampNeg (subParentPadding parentPadding (resolveHeight m bgH st mode parentHeight t))

/-- Embedding of `SizeController.update` (SizeController.ts lines 31-163) for
one node.  `bgW`/`bgH` are the background's intrinsic size (read in
`stickToBackground` mode), `mode` is the auto-size mode (see `SizeControl`),
and `parentPadding` is `some p` when the node's parent is a `Layout` whose
`style.padding ?? 0` equals `p` (lines 131-137).  The early returns at lines
53-58 and 142-147 set `visible = false` and leave the rest of the state as it
was; the full path stores the resolved size, sets the scale from the style
(running `fitToSize` when `maxWidth || maxHeight` is truthy, which assigns
one uniform value to both axes) and proceeds to the flex align update. -/
def SizeController.update (m : TextMeasure) (bgW bgH : ℚ) (st : Style)
    (mode : SizeControl) (parentPadding : Option ℚ) (s : NodeState)
    (parentWidth parentHeight : ℚ) : UpdateOut :=
  if st.width = .px 0 ∨ st.height = .px 0 then
    { state := { s with visible := false }, alignCalled := false }
  else
    let text1 := updateText m st mode parentWidth s.text
    let fw := finalWidth m bgW st mode parentPadding parentWidth text1
    let fh := finalHeight m bgH st mode parentPadding parentHeight text1
    if fw = 0 ∨ fh = 0 then
      { state := { s with visible := false, text := text1 }, alignCalled := false }
    else
      let scaleBoth :=
        if flexTruthy st.maxWidth || flexTruthy st.maxHeight then
          let v := fitToSize st parentWidth parentHeight fw fh st.scaleX st.scaleY
          (v, v)
        else (st.scaleX, st.scaleY)
      { state := { visible := s.visible, w := fw, h := fh,
                   sx := scaleBoth.1, sy := scaleBoth.2, text := text1 },
        alignCalled := true }

/-- Applying the word-wrap side effect twice with the same available width is
the same as applying it once. -/
theorem wrapText_idem (measureW : TextState → ℚ) (avail : ℚ) (t : TextState) :
    wrapText measureW avail (wrapText measureW avail t) = wrapText measureW avail t := by
  unfold wrapText
  by_cases hww : t.wordWrap = false
  · by_cases hm : measureW t ≥ avail
    · simp [hww, hm]
    · simp [hww, hm]
  · simp [hww]

/-- Applying the text mutation of one `update` call twice is the same as
applying it once. -/
theorem updateText_idem (m : TextMeasure) (st : Style) (mode : SizeControl)
    (pW : ℚ) (t : TextState) :
    updateText m st mode pW (updateText m st mode pW t) = updateText m st mode pW t := by
  cases hst : st.width <;> cases mode <;> simp [updateText, hst, wrapText_idem]

/-- C3: running the resolve pass twice in succession with identical arguments
on an otherwise unmodified node yields identical resolved geometry (visible,
width, height, scale) — the node state after the second `SizeController.update`
equals the state after the first, so no hidden state accumulates across calls,
including across the text word-wrap side effect. -/
theorem update_idempotent (m : TextMeasure) (bgW bgH : ℚ) (st : Style)
    (mode : SizeControl) (pp : Option ℚ) (s : NodeState) (pW pH : ℚ) :
    (SizeController.update m bgW bgH st mode pp
        (SizeController.update m bgW bgH st mode pp s pW pH).state pW pH).state
      = (SizeController.update m bgW bgH st mode pp s pW pH).state := by
  by_cases h0 : st.width = .px 0 ∨ st.height = .px 0
  · simp [SizeController.update, h0]
  · by_cases hC : finalWidth m bgW st mode pp pW (updateText m st mode pW s.text) = 0 ∨
        finalHeight m bgH st mode pp pH (updateText m st mode pW s.text) = 0
    · simp [SizeController.update, h0, hC, updateText_idem]
    · simp [SizeController.update, h0, hC, updateText_idem]

/-- A constant text-measurement provider for concrete evaluations. -/
def constMeasure : TextMeasure :=
  { width := fun _ => 10, height := fun _ => 10 }

/-- A style whose width is literally `0` (and height `50px`). -/
def zeroWidthStyle : Style :=
  { mkMaxStyle none none 1 1 with width := .px 0, height := .px 50 }

/-- A node state carrying non-zero stored geometry from an earlier pass. -/
def prevState : NodeState :=
  { visible := true, w := 5, h := 7, sx := 1, sy := 1, text := ⟨false, 100⟩ }

/-- C4 counterexample: for a node with `style.width = 0` whose stored width
from an earlier pass is `5`, `update` sets `visible = false` and returns
early, but the stored geometry fields are left at their previous values, not
set to `0` — the claim's "sets all geometry fields to 0" fails. -/
theorem update_zero_size_counterexample :
    (SizeController.update constMeasure 0 0 zeroWidthStyle .fitToParent none
        prevState 100 100).state.visible = false ∧
    (SizeController.update constMeasure 0 0 zeroWidthStyle .fitToParent none
        prevState 100 100).state.w = 5 ∧
    (5 : ℚ) ≠ 0 ∧
    (SizeController.update constMeasure 0 0 zeroWidthStyle .fitToParent none
        prevState 100 100).alignCalled = false := by
  refine ⟨?_, ?_, by norm_num, ?_⟩ <;>
    simp [SizeController.update, zeroWidthStyle, prevState, mkMaxStyle]

/-- C4 amended: for a node whose style width or height is literally `0`,
`update` sets `visible = false`, stops without raising (the function is
total), does not invoke the flex align update, and leaves every other state
field unmodified (geometry keeps its previous values rather than being
zeroed); moreover every early return of `update` (including the one for a
computed dimension that clamps to `0`) leaves the stored width, height and
scale unmodified and sets `visible = false` without invoking flex align. -/
theorem update_zero_size_amended (m : TextMeasure) (bgW bgH : ℚ) (st : Style)
    (mode : SizeControl) (pp : Option ℚ) (s : NodeState) (pW pH : ℚ) :
    (st.width = .px 0 ∨ st.height = .px 0 →
      SizeController.update m bgW bgH st mode pp s pW pH
        = { state := { s with visible := false }, alignCalled := false }) ∧
    ((SizeController.update m bgW bgH st mode pp s pW pH).alignCalled = false →
      (SizeController.update m bgW bgH st mode pp s pW pH).state.visible = false ∧
      (SizeController.update m bgW bgH st mode pp s pW pH).state.w = s.w ∧
      (SizeController.update m bgW bgH st mode pp s pW pH).state.h = s.h ∧
      (SizeController.update m bgW bgH st mode pp s pW pH).state.sx = s.sx ∧
      (SizeController.update m bgW bgH st mode pp s pW pH).state.sy = s.sy) := by
  constructor
  · intro h
    simp [SizeController.update, h]
  · intro hA
    by_cases h0 : st.width = .px 0 ∨ st.height = .px 0
    · simp [SizeController.update, h0]
    · by_cases hC : finalWidth m bgW st mode pp pW (updateText m st mode pW s.text) = 0 ∨
          finalHeight m bgH st mode pp pH (updateText m st mode pW s.text) = 0
      · simp [SizeController.update, h0, hC]
      · exact absurd hA (by simp [SizeController.update, h0, hC])

/-- Witness for `update_zero_size_amended` at a node with `style.width = 0`. -/
theorem update_zero_size_amended_witness :
    SizeController.update constMeasure 0 0 zeroWidthStyle .fitToParent none prevState 100 100
      = { state := { prevState with visible := false }, alignCalled := false } :=
  (update_zero_size_amended constMeasure 0 0 zeroWidthStyle .fitToParent none
    prevState 100 100).1 (Or.inl rfl)

/-- One already-sized child container handled by `FlexAlignController`: its
current position and its resolved size.  The align functions read `width` and
`height` and assign `x` and `y`. -/
structure Item where
  x : ℚ
  y : ℚ
  width : ℚ
  height : ℚ
deriving DecidableEq

/-- The widths and heights of a list of items, used to state that alignment
never modifies sizes. -/
def sizesOf (items : List Item) : List (ℚ × ℚ) :=
  items.map fun c => (c.width, c.height)

/-- The `justifyContent` style values handled by `FlexAlignController`; any
string outside the recognised set falls into the `default` switch case, here
`other`. -/
inductive JustifyContent
  | flexStart
  | start
  | left
  | flexEnd
  | end_
  | right
  | center
  | spaceBetween
  | spaceAround
  | spaceEvenly
  | stretch
  | other (s : String)
deriving DecidableEq

/-- The `flexWrap` style values; anything outside the recognised set falls
into the `default` (nowrap) switch case. -/
inductive FlexWrap
  | nowrap
  | wrap
  | wrapReverse
  | other (s : String)
deriving DecidableEq

/-- The `flexDirection` style values; anything outside the recognised set
falls into the `default` switch case, which throws. -/
inductive FlexDirection
  | row
  | rowReverse
  | column
  | columnReverse
  | other (s : String)
deriving DecidableEq

/-- Embedding of `FlexAlignController.alignFlexColumn`: stack children
vertically (`child.y = y; y += child.height`); note the source never assigns
`child.x`. -/
def alignFlexColumnGo (y : ℚ) : List Item → List Item
  | [] => []
  | c :: rest => { c with y := y } :: alignFlexColumnGo (y + c.height) rest

def alignFlexColumn (items : List Item) : List Item :=
  alignFlexColumnGo 0 items

/-- Start-family packing of `alignNowrap` (`child.x = x; x += child.width`). -/
def alignNowrapStartGo (x : ℚ) : List Item → List Item
  | [] => []
  | c :: rest => { c with x := x } :: alignNowrapStartGo (x + c.width) rest

/-- End-family packing of `alignNowrap`, performed over the reversed list
(`child.x = rootWidth - x - child.width; x += child.width`). -/
def alignNowrapEndGo (rootWidth x : ℚ) : List Item → List Item
  | [] => []
  | c :: rest => { c with x := rootWidth - x - c.width } :: alignNowrapEndGo rootWidth (x + c.width) rest

/-- Center packing of `alignNowrap` (`child.x = x + offset`). -/
def alignNowrapCenterGo (offset x : ℚ) : List Item → List Item
  | [] => []
  | c :: rest => { c with x := x + offset } :: alignNowrapCenterGo offset (x + c.width) rest

/-- Space-between packing of `alignNowrap`
(`child.x = x; x += child.width + space / (items.length - 1)`). -/
def alignNowrapSpaceBetweenGo (gap x : ℚ) : List Item → List Item
  | [] => []
  | c :: rest => { c with x := x } :: alignNowrapSpaceBetweenGo gap (x + c.width + gap) rest

/-- Space-around packing of `alignNowrap`
(`child.x = x + space / 2 / n; x += child.width + space / n`). -/
def alignNowrapSpaceAroundGo (lead gap x : ℚ) : List Item → List Item
  | [] => []
  | c :: rest => { c with x := x + lead } :: alignNowrapSpaceAroundGo lead gap (x + c.width + gap) rest

/-- The reduce over child widths computed at the top of `alignNowrap`
(`items.reduce((acc, child) => acc + child.width, 0)`). -/
def totalWidth (items : List Item) : ℚ :=
  items.foldl (fun acc c => acc + c.width) 0

/-- Embedding of `FlexAlignController.alignNowrap` (SizeController.ts lines
693-746).  The `space-evenly` case uses the same loop shape as `space-around`
with lead and gap both `space / (n + 1)`; the `stretch` case is a bare
`// TODO break` and assigns nothing, leaving every item unchanged. -/
def alignNowrap (rootWidth : ℚ) (justifyContent : JustifyContent)
    (items : List Item) : List Item :=
  let offset := (rootWidth - totalWidth items) / 2
  let space := rootWidth - totalWidth items
  match justifyContent with
  | .flexEnd | .end_ | .right => (alignNowrapEndGo rootWidth 0 items.reverse).reverse
  | .center => alignNowrapCenterGo offset 0 items
  | .spaceBetween => alignNowrapSpaceBetweenGo (space / ((items.length : ℚ) - 1)) 0 items
  | .spaceAround =>
      alignNowrapSpaceAroundGo (space / 2 / (items.length : ℚ)) (space / (items.length : ℚ)) 0 items
  | .spaceEvenly =>
      alignNowrapSpaceAroundGo (space / ((items.length : ℚ) + 1)) (space / ((items.length : ℚ) + 1)) 0 items
  | .stretch => items
  | _ => alignNowrapStartGo 0 items

/-- Embedding of `FlexAlignController.alignRowWrapStart` (SizeController.ts
lines 384-409): greedy left-to-right packing; when placing the next child at
cumulative `x` would exceed the container width, the child starts a new line
at `x = 0` with `y` advanced by the finished line's maximum child height. -/
def alignRowWrapStartGo (rootWidth x y maxH : ℚ) : List Item → List Item
  | [] => []
  | c :: rest =>
    if x + c.width > rootWidth then
      { c with x := 0, y := y + maxH }
        :: alignRowWrapStartGo rootWidth c.width (y + maxH) (max c.height 0) rest
    else
      { c with x := x, y := y }
        :: alignRowWrapStartGo rootWidth (x + c.width) y (max c.height maxH) rest

def alignRowWrapStart (rootWidth : ℚ) (items : List Item) : List Item :=
  alignRowWrapStartGo rootWidth 0 0 0 items

/-- Embedding of `FlexAlignController.alignRowWrapEnd` (lines 411-451): as
`alignRowWrapStart`, but each time a line is finished (and once more after the
loop) every item of that line is shifted right by the leftover space
`rootWidth - x`. -/
def alignRowWrapEndGo (rootWidth x y maxH : ℚ) (line : List Item) : List Item → List Item
  | [] => line.map fun d => { d with x := d.x + (rootWidth - x) }
  | c :: rest =>
    if x + c.width > rootWidth then
      (line.map fun d => { d with x := d.x + (rootWidth - x) })
        ++ alignRowWrapEndGo rootWidth c.width (y + maxH) (max c.height 0)
             [{ c with x := 0, y := y + maxH }] rest
    else
      alignRowWrapEndGo rootWidth (x + c.width) y (max c.height maxH)
        (line ++ [{ c with x := x, y := y }]) rest

def alignRowWrapEnd (rootWidth : ℚ) (items : List Item) : List Item :=
  alignRowWrapEndGo rootWidth 0 0 0 [] items

/-- Embedding of `FlexAlignController.alignRowWrapCenter` (lines 453-492):
each finished line is shifted right by half the leftover space. -/
def alignRowWrapCenterGo (rootWidth x y maxH : ℚ) (line : List Item) : List Item → List Item
  | [] => line.map fun d => { d with x := d.x + (rootWidth - x) / 2 }
  | c :: rest =>
    if x + c.width > rootWidth then
      (line.map fun d => { d with x := d.x + (rootWidth - x) / 2 })
        ++ alignRowWrapCenterGo rootWidth c.width (y + maxH) (max c.height 0)
             [{ c with x := 0, y := y + maxH }] rest
    else
      alignRowWrapCenterGo rootWidth (x + c.width) y (max c.height maxH)
        (line ++ [{ c with x := x, y := y }]) rest

def alignRowWrapCenter (rootWidth : ℚ) (items : List Item) : List Item :=
  alignRowWrapCenterGo rootWidth 0 0 0 [] items

/-- Mid-loop line adjustment of `alignRowWrapSpaceBetween` (lines 504-512):
`items[i].x += (space / lineAmount) * number` over the finished line, with
`lineAmount` one less than the line length (in IEEE arithmetic a single-item
line divides by zero here; in `ℚ` the quotient is `0`). -/
def sbMidClose (space : ℚ) (line : List Item) : List Item :=
  line.mapIdx fun k d =>
    { d with x := d.x + space / ((line.length : ℚ) - 1) * (k : ℚ) }

/-- Post-loop line adjustment of `alignRowWrapSpaceBetween` (lines 533-541),
which guards the degenerate single-item line. -/
def sbFinalClose (space : ℚ) (line : List Item) : List Item :=
  line.mapIdx fun k d =>
    { d with x := d.x + (if (line.length : ℚ) - 1 > 0 then space / ((line.length : ℚ) - 1) else space) * (k : ℚ) }

/-- Embedding of `FlexAlignController.alignRowWrapSpaceBetween`
(lines 494-542). -/
def alignRowWrapSpaceBetweenGo (rootWidth x y maxH : ℚ) (line : List Item) : List Item → List Item
  | [] => sbFinalClose (rootWidth - x) line
  | c :: rest =>
    if x + c.width > rootWidth then
      sbMidClose (rootWidth - x) line
        ++ alignRowWrapSpaceBetweenGo rootWidth c.width (y + maxH) (max c.height 0)
             [{ c with x := 0, y := y + maxH }] rest
    else
      alignRowWrapSpaceBetweenGo rootWidth (x + c.width) y (max c.height maxH)
        (line ++ [{ c with x := x, y := y }]) rest

def alignRowWrapSpaceBetween (rootWidth : ℚ) (items : List Item) : List Item :=
  alignRowWrapSpaceBetweenGo rootWidth 0 0 0 [] items

/-- Line re-positioning of `alignRowWrapSpaceAround` (lines 559-562 and
588-591): `items[i].x = tmpX + space/2/lineAmount; tmpX += items[i].width +
space/lineAmount`, with `lineAmount` the line length. -/
def saLine (space lineAmount tmp : ℚ) : List Item → List Item
  | [] => []
  | d :: ds =>
      { d with x := tmp + space / 2 / lineAmount }
        :: saLine space lineAmount (tmp + d.width + space / lineAmount) ds

/-- Embedding of `FlexAlignController.alignRowWrapSpaceAround`
(lines 544-592). -/
def alignRowWrapSpaceAroundGo (rootWidth x y maxH : ℚ) (line : List Item) : List Item → List Item
  | [] => saLine (rootWidth - x) ((line.length : ℚ)) 0 line
  | c :: rest =>
    if x + c.width > rootWidth then
      saLine (rootWidth - x) ((line.length : ℚ)) 0 line
        ++ alignRowWrapSpaceAroundGo rootWidth c.width (y + maxH) (max c.height 0)
             [{ c with x := 0, y := y + maxH }] rest
    else
      alignRowWrapSpaceAroundGo rootWidth (x + c.width) y (max c.height maxH)
        (line ++ [{ c with x := x, y := y }]) rest

def alignRowWrapSpaceAround (rootWidth : ℚ) (items : List Item) : List Item :=
  alignRowWrapSpaceAroundGo rootWidth 0 0 0 [] items

/-- Line re-positioning of `alignRowWrapSpaceEvenly` (lines 609-612 and
638-641): `items[i].x = tmpX + space/(lineAmount+1); tmpX += items[i].width +
space/(lineAmount+1)`, with `lineAmount` the line length. -/
def seLine (space lineAmount tmp : ℚ) : List Item → List Item
  | [] => []
  | d :: ds =>
      { d with x := tmp + space / (lineAmount + 1) }
        :: seLine space lineAmount (tmp + d.width + space / (lineAmount + 1)) ds

/-- Embedding of `FlexAlignController.alignRowWrapSpaceEvenly`
(lines 594-642). -/
def alignRowWrapSpaceEvenlyGo (rootWidth x y maxH : ℚ) (line : List Item) : List Item → List Item
  | [] => seLine (rootWidth - x) ((line.length : ℚ)) 0 line
  | c :: rest =>
    if x + c.width > rootWidth then
      seLine (rootWidth - x) ((line.length : ℚ)) 0 line
        ++ alignRowWrapSpaceEvenlyGo rootWidth c.width (y + maxH) (max c.height 0)
             [{ c with x := 0, y := y + maxH }] rest
    else
      alignRowWrapSpaceEvenlyGo rootWidth (x + c.width) y (max c.height maxH)
        (line ++ [{ c with x := x, y := y }]) rest

def alignRowWrapSpaceEvenly (rootWidth : ℚ) (items : List Item) : List Item :=
  alignRowWrapSpaceEvenlyGo rootWidth 0 0 0 [] items

/-- Embedding of `FlexAlignController.alignRowWrap` (lines 353-382): dispatch
on `justifyContent`, with the start family as the `default` case; the
`stretch` case is a bare `// TODO break` and assigns nothing. -/
def alignRowWrap (rootWidth : ℚ) (justifyContent : JustifyContent)
    (items : List Item) : List Item :=
  match justifyContent with
  | .flexEnd | .end_ | .right => alignRowWrapEnd rootWidth items
  | .center => alignRowWrapCenter rootWidth items
  | .spaceBetween => alignRowWrapSpaceBetween rootWidth items
  | .spaceAround => alignRowWrapSpaceAround rootWidth items
  | .spaceEvenly => alignRowWrapSpaceEvenly rootWidth items
  | .stretch => items
  | _ => alignRowWrapStart rootWidth items

/-- Maximum child height of one row, as accumulated into `maxHeight[rowID+1]`
by the second loop of `alignRowReverse` (starts at `0`). -/
def rowMaxHeight (row : List Item) : ℚ :=
  row.foldl (fun m c => if c.height > m then c.height else m) 0

/-- First loop of `FlexAlignController.alignRowReverse` (lines 653-676):
identical line breaking to the wrap algorithm, assigning only `x` and
collecting the rows in order (the `y`/`maxChildHeight` bookkeeping of this
loop is dead: `child.y` is never assigned there). -/
def rowReverseBuild (rootWidth x : ℚ) (row : List Item) : List Item → List (List Item)
  | [] => [row]
  | c :: rest =>
    if x + c.width > rootWidth then
      row :: rowReverseBuild rootWidth c.width [{ c with x := 0 }] rest
    else
      rowReverseBuild rootWidth (x + c.width) (row ++ [{ c with x := x }]) rest

/-- Second loop of `alignRowReverse` (lines 678-690) over the reversed rows:
every child of a row gets `y = maxHeight[rowID]`, the maximum height of the
previous reversed row (`0` for the first). -/
def rowReverseAssignY (prevMax : ℚ) : List (List Item) → List (List Item)
  | [] => []
  | row :: rest =>
      (row.map fun c => { c with y := prevMax }) :: rowReverseAssignY (rowMaxHeight row) rest

/-- Embedding of `FlexAlignController.alignRowReverse` (lines 644-691); the
result is returned in the original item order (the source mutates the child
objects in place, leaving the array order unchanged). -/
def alignRowReverse (rootWidth : ℚ) (items : List Item) : List Item :=
  ((rowReverseAssignY 0 ((rowReverseBuild rootWidth 0 [] items).reverse)).reverse).flatten

/-- Embedding of `FlexAlignController.alignFlexRow` (lines 333-351): dispatch
on `flexWrap` with nowrap as the `default` case.  The source reads
`justifyContent` and passes it to every branch (`alignRowReverse` ignores
it). -/
def alignFlexRow (rootWidth : ℚ) (flexWrap : FlexWrap)
    (justifyContent : JustifyContent) (items : List Item) : List Item :=
  match flexWrap with
  | .wrapReverse => alignRowReverse rootWidth items
  | .wrap => alignRowWrap rootWidth justifyContent items
  | _ => alignNowrap rootWidth justifyContent items

/-- Embedding of `FlexAlignController.update` (SizeController.ts lines
301-322): dispatch on `flexDirection`; the reverse variants run the same
algorithm over `items.slice().reverse()` (the source mutates the child
objects, so the result is re-reversed here to keep the original item order);
any other value throws `new Error('Invalid flex-direction value')`, modelled
as `Except.error`. -/
def FlexAlignController.update (flexDirection : FlexDirection) (flexWrap : FlexWrap)
    (justifyContent : JustifyContent) (rootWidth : ℚ) (items : List Item) :
    Except String (List Item) :=
  match flexDirection with
  | .row => .ok (alignFlexRow rootWidth flexWrap justifyContent items)
  | .rowReverse => .ok ((alignFlexRow rootWidth flexWrap justifyContent items.reverse).reverse)
  | .column => .ok (alignFlexColumn items)
  | .columnReverse => .ok ((alignFlexColumn items.reverse).reverse)
  | .other _ => .error "Invalid flex-direction value"

/-- C5: for every `flexDirection` value outside {row, row-reverse, column,
column-reverse} the flex align update raises the configuration error
`'Invalid flex-direction value'`, aborting that call and surfacing the error
to the caller; for each of the four valid values it dispatches to the row or
column algorithm over the items in the given order (row, column) or over the
reversed order (row-reverse, column-reverse). -/
theorem flexAlign_update_dispatch (s : String) (fw : FlexWrap)
    (jc : JustifyContent) (rootWidth : ℚ) (items : List Item) :
    FlexAlignController.update (.other s) fw jc rootWidth items
      = .error "Invalid flex-direction value" ∧
    FlexAlignController.update .row fw jc rootWidth items
      = .ok (alignFlexRow rootWidth fw jc items) ∧
    FlexAlignController.update .rowReverse fw jc rootWidth items
      = .ok ((alignFlexRow rootWidth fw jc items.reverse).reverse) ∧
    FlexAlignController.update .column fw jc rootWidth items
      = .ok (alignFlexColumn items) ∧
    FlexAlignController.update .columnReverse fw jc rootWidth items
      = .ok ((alignFlexColumn items.reverse).reverse) :=
  ⟨rfl, rfl, rfl, rfl, rfl⟩

/-- C7 counterexample: the column algorithm never assigns `child.x`; a single
child whose current x is `7` keeps `x = 7` after the column pass, so "x_i = 0"
fails. -/
theorem alignFlexColumn_x_counterexample :
    FlexAlignController.update .column .nowrap .start 100 [⟨7, 3, 10, 20⟩]
      = .ok [⟨7, 0, 10, 20⟩] ∧ (7 : ℚ) ≠ 0 :=
  ⟨rfl, by norm_num⟩

/-- The y offsets the specification's column rule assigns: running prefix sums
of the child heights. -/
def columnYs (y : ℚ) : List ℚ → List ℚ
  | [] => []
  | h :: hs => y :: columnYs (y + h) hs

/-- The column pass leaves every `x` unchanged and assigns prefix-sum `y`
offsets, for any starting offset. -/
theorem alignFlexColumnGo_spec (y : ℚ) (items : List Item) :
    (alignFlexColumnGo y items).map Item.x = items.map Item.x ∧
    (alignFlexColumnGo y items).map Item.y = columnYs y (items.map Item.height) := by
  induction items generalizing y with
  | nil => simp [alignFlexColumnGo, columnYs]
  | cons c rest ih =>
    obtain ⟨ih1, ih2⟩ := ih (y + c.height)
    simp [alignFlexColumnGo, columnYs, ih1, ih2]

/-- C7 amended: for the column flex direction over any ordered list of
already-sized children, each child i is assigned `y_i` equal to the sum of the
heights of all preceding children (`y_0 = 0`), with no wrapping and no
justification applied; `x` is not assigned and keeps its previous value
(which is 0 for a freshly created child container). -/
theorem alignFlexColumn_amended (items : List Item) :
    (alignFlexColumn items).map Item.x = items.map Item.x ∧
    (alignFlexColumn items).map Item.y = columnYs 0 (items.map Item.height) :=
  alignFlexColumnGo_spec 0 items

/-- The `float` style values named by `Layout.float`'s switch; `left`, `top`
and `leftTop` are skipped there because they are the defaults. -/
inductive Float
  | left
  | top
  | leftTop
  | rightTop
  | right
  | leftBottom
  | bottom
  | rightBottom
  | center
  | centerTop
  | centerBottom
  | centerLeft
  | centerRight
deriving DecidableEq

/-- Embedding of `Layout.float` (the `Layout` class, lines 446-488): given the
parent box (`width`, `height` — the method's parameters), the node's resolved
size (`this.size`) and the node's current origin, return the new origin; the
skipped defaults and an absent anchor leave the origin unchanged. -/
def Layout.float (f : Option Float) (width height sizeW sizeH x y : ℚ) : ℚ × ℚ :=
  match f with
  | some .rightTop | some .right => (width - sizeW, y)
  | some .leftBottom | some .bottom => (x, height - sizeH)
  | some .rightBottom => (width - sizeW, height - sizeH)
  | some .center => (width / 2 - sizeW / 2, height / 2 - sizeH / 2)
  | some .centerTop => (width / 2 - sizeW / 2, y)
  | some .centerBottom => (width / 2 - sizeW / 2, height - sizeH)
  | some .centerLeft => (x, height / 2 - sizeH / 2)
  | some .centerRight => (width - sizeW, height / 2 - sizeH / 2)
  | _ => (x, y)

/-- C8: the anchor resolver is a pure translation on the nine-point grid.
Starting from the origin, the default/unspecified anchors yield `(0,0)`; the
bottom/right variants place the node flush against the far edge
(`x = parentWidth - nodeWidth`, `y = parentHeight - nodeHeight` on the named
axes); the center variants center on the corresponding axis; and a 50x50 node
in a 200x100 parent anchored bottom-right ends at `(150, 50)`. -/
theorem float_anchor_grid (pw ph w h : ℚ) :
    Layout.float none pw ph w h 0 0 = (0, 0) ∧
    Layout.float (some .leftTop) pw ph w h 0 0 = (0, 0) ∧
    Layout.float (some .left) pw ph w h 0 0 = (0, 0) ∧
    Layout.float (some .top) pw ph w h 0 0 = (0, 0) ∧
    Layout.float (some .right) pw ph w h 0 0 = (pw - w, 0) ∧
    Layout.float (some .rightTop) pw ph w h 0 0 = (pw - w, 0) ∧
    Layout.float (some .bottom) pw ph w h 0 0 = (0, ph - h) ∧
    Layout.float (some .leftBottom) pw ph w h 0 0 = (0, ph - h) ∧
    Layout.float (some .rightBottom) pw ph w h 0 0 = (pw - w, ph - h) ∧
    Layout.float (some .center) pw ph w h 0 0 = (pw / 2 - w / 2, ph / 2 - h / 2) ∧
    Layout.float (some .centerTop) pw ph w h 0 0 = (pw / 2 - w / 2, 0) ∧
    Layout.float (some .centerBottom) pw ph w h 0 0 = (pw / 2 - w / 2, ph - h) ∧
    Layout.float (some .centerLeft) pw ph w h 0 0 = (0, ph / 2 - h / 2) ∧
    Layout.float (some .centerRight) pw ph w h 0 0 = (pw - w, ph / 2 - h / 2) ∧
    Layout.float (some .rightBottom) 200 100 50 50 0 0 = (150, 50) := by
  refine ⟨rfl, rfl, rfl, rfl, rfl, rfl, rfl, rfl, rfl, rfl, rfl, rfl, rfl, rfl, ?_⟩
  simp only [Layout.float]
  norm_num

/-- Two already-sized children of width 50 and height 10 sitting at the
origin. -/
def twoItems : List Item := [⟨0, 0, 50, 10⟩, ⟨0, 0, 50, 10⟩]

/-- C9 counterexample: with two width-50 children at the origin in a 200-wide
container, `stretch` leaves both at `x = 0` (its switch case is an empty
`// TODO`) while `start` packs them to `x = [0, 50]` — `stretch` does not
behave as `start`. -/
theorem stretch_not_start_counterexample :
    (alignNowrap 200 .stretch twoItems).map Item.x = [0, 0] ∧
    (alignNowrap 200 .start twoItems).map Item.x = [0, 50] ∧
    alignNowrap 200 .stretch twoItems ≠ alignNowrap 200 .start twoItems := by
  have h1 : (alignNowrap 200 .stretch twoItems).map Item.x = [0, 0] := by
    simp [alignNowrap, twoItems]
  have h2 : (alignNowrap 200 .start twoItems).map Item.x = [0, 50] := by
    norm_num [alignNowrap, alignNowrapStartGo, twoItems]
  refine ⟨h1, h2, fun hEq => ?_⟩
  rw [hEq, h2] at h1
  norm_num at h1

/-- C9 amended: the `stretch` justification is unimplemented as a no-op: both
the nowrap and the wrap row algorithms leave every child's position exactly as
it was (they assign nothing), which coincides with `start` only when the
children already sit at packed start positions. -/
theorem stretch_noop_amended (rootWidth : ℚ) (items : List Item) :
    alignNowrap rootWidth .stretch items = items ∧
    alignRowWrap rootWidth .stretch items = items :=
  ⟨rfl, rfl⟩

/-- The space-between packing loop preserves the number of items. -/
theorem alignNowrapSpaceBetweenGo_length (gap : ℚ) (l : List Item) (x : ℚ) :
    (alignNowrapSpaceBetweenGo gap x l).length = l.length := by
  induction l generalizing x with
  | nil => rfl
  | cons c rest ih => simp [alignNowrapSpaceBetweenGo, ih]

/-- In the space-between packing loop, each child starts exactly one child
width plus one gap after the previous child's x. -/
theorem alignNowrapSpaceBetweenGo_consecutive (gap : ℚ) (l : List Item) (x : ℚ) (i : ℕ)
    (h : i + 1 < (alignNowrapSpaceBetweenGo gap x l).length) :
    ((alignNowrapSpaceBetweenGo gap x l).get ⟨i + 1, h⟩).x
      = ((alignNowrapSpaceBetweenGo gap x l).get ⟨i, Nat.lt_of_succ_lt h⟩).x
        + ((alignNowrapSpaceBetweenGo gap x l).get ⟨i, Nat.lt_of_succ_lt h⟩).width + gap := by
  induction l generalizing x i with
  | nil => simp [alignNowrapSpaceBetweenGo] at h
  | cons c rest ih =>
    cases i with
    | zero =>
      cases rest with
      | nil => simp [alignNowrapSpaceBetweenGo] at h
      | cons d ds => simp [alignNowrapSpaceBetweenGo]
    | succ j =>
      have h' : j + 1 < (alignNowrapSpaceBetweenGo gap (x + c.width + gap) rest).length := by
        simpa [alignNowrapSpaceBetweenGo] using h
      simpa [alignNowrapSpaceBetweenGo] using ih (x + c.width + gap) j h'

/-- Three already-sized children of width 50 and height 10 at the origin. -/
def threeItems : List Item := [⟨0, 0, 50, 10⟩, ⟨0, 0, 50, 10⟩, ⟨0, 0, 50, 10⟩]

/-- C6: for the row algorithm with nowrap and space-between justification
over already-sized children, the first child is at `x = 0`, consecutive
children are separated by gaps of `(containerWidth - totalChildWidth)/(n-1)`
(each child starts one child width plus one gap after the previous one); for
a single child the degenerate division is never applied to a position and the
result is the start placement (`x = 0`) with no error raised; and 3 children
of width 50 in a 200-wide container get `x = [0, 75, 150]`. -/
theorem alignNowrap_spaceBetween (rootWidth : ℚ) (c : Item) (cs : List Item) (i : ℕ)
    (h : i + 1 < (alignNowrap rootWidth .spaceBetween (c :: cs)).length) :
    (alignNowrap rootWidth .spaceBetween (c :: cs)).head? = some { c with x := 0 } ∧
    ((alignNowrap rootWidth .spaceBetween (c :: cs)).get ⟨i + 1, h⟩).x
      = ((alignNowrap rootWidth .spaceBetween (c :: cs)).get ⟨i, Nat.lt_of_succ_lt h⟩).x
        + ((alignNowrap rootWidth .spaceBetween (c :: cs)).get ⟨i, Nat.lt_of_succ_lt h⟩).width
        + (rootWidth - totalWidth (c :: cs)) / (((c :: cs).length : ℚ) - 1) ∧
    alignNowrap rootWidth .spaceBetween [c] = alignNowrap rootWidth .start [c] ∧
    (alignNowrap 200 .spaceBetween threeItems).map Item.x = [0, 75, 150] := by
  refine ⟨rfl, ?_, rfl, ?_⟩
  · exact alignNowrapSpaceBetweenGo_consecutive
      ((rootWidth - totalWidth (c :: cs)) / (((c :: cs).length : ℚ) - 1)) (c :: cs) 0 i h
  · norm_num [alignNowrap, alignNowrapSpaceBetweenGo, totalWidth, threeItems]

/-- Witness for `alignNowrap_spaceBetween` at the spec's concrete instance. -/
theorem alignNowrap_spaceBetween_witness :
    (alignNowrap 200 .spaceBetween threeItems).map Item.x = [0, 75, 150] :=
  (alignNowrap_spaceBetween 200 ⟨0, 0, 50, 10⟩ [⟨0, 0, 50, 10⟩, ⟨0, 0, 50, 10⟩] 0
    (by simp [alignNowrap, alignNowrapSpaceBetweenGo_length])).2.2.2

/-- In the greedy wrap loop, the cumulative x after a child is that child's
assigned x plus its width, so the next child starts a new line at `x = 0`
exactly when continuing the line would exceed the container width, and
otherwise continues the line right after the previous child. -/
theorem alignRowWrapStartGo_consecutive (W : ℚ) (l : List Item) (x y maxH : ℚ) (i : ℕ)
    (h : i + 1 < (alignRowWrapStartGo W x y maxH l).length) :
    ((alignRowWrapStartGo W x y maxH l).get ⟨i + 1, h⟩).x
      = if ((alignRowWrapStartGo W x y maxH l).get ⟨i, Nat.lt_of_succ_lt h⟩).x
            + ((alignRowWrapStartGo W x y maxH l).get ⟨i, Nat.lt_of_succ_lt h⟩).width
            + ((alignRowWrapStartGo W x y maxH l).get ⟨i + 1, h⟩).width > W
        then 0
        else ((alignRowWrapStartGo W x y maxH l).get ⟨i, Nat.lt_of_succ_lt h⟩).x
            + ((alignRowWrapStartGo W x y maxH l).get ⟨i, Nat.lt_of_succ_lt h⟩).width := by
  induction l generalizing x y maxH i with
  | nil => simp [alignRowWrapStartGo] at h
  | cons c rest ih =>
    cases i with
    | zero =>
      by_cases hc : x + c.width > W
      · cases rest with
        | nil => simp [alignRowWrapStartGo, hc] at h
        | cons d ds =>
          by_cases hd : c.width + d.width > W <;>
            simp [alignRowWrapStartGo, hc, hd]
      · cases rest with
        | nil => simp [alignRowWrapStartGo, hc] at h
        | cons d ds =>
          by_cases hd : x + c.width + d.width > W <;>
            simp [alignRowWrapStartGo, hc, hd]
    | succ j =>
      by_cases hc : x + c.width > W
      · have h' : j + 1 < (alignRowWrapStartGo W c.width (y + maxH) (max c.height 0) rest).length := by
          simpa [alignRowWrapStartGo, hc] using h
        simpa [alignRowWrapStartGo, hc] using ih c.width (y + maxH) (max c.height 0) j h'
      · have h' : j + 1 < (alignRowWrapStartGo W (x + c.width) y (max c.height maxH) rest).length := by
          simpa [alignRowWrapStartGo, hc] using h
        simpa [alignRowWrapStartGo, hc] using ih (x + c.width) y (max c.height maxH) j h'

/-- C2: in the row algorithm with wrap and start justification children are
packed greedily left to right, with a new line started (x reset to 0, the line
continuing from the overflowing child's width) exactly when adding the next
child would push the cumulative x past the container width; in particular 4
children of width 60 with positive heights in a 100-wide container each land
on their own line at `x = 0`, with y strictly increasing by the previous
line's (single-child) max height. -/
theorem alignRowWrapStart_greedy (W : ℚ) (items : List Item) (i : ℕ)
    (h : i + 1 < (alignRowWrapStart W items).length)
    (h0 h1 h2 h3 : ℚ) (hp0 : 0 < h0) (hp1 : 0 < h1) (hp2 : 0 < h2) (hp3 : 0 < h3) :
    (((alignRowWrapStart W items).get ⟨i + 1, h⟩).x
      = if ((alignRowWrapStart W items).get ⟨i, Nat.lt_of_succ_lt h⟩).x
            + ((alignRowWrapStart W items).get ⟨i, Nat.lt_of_succ_lt h⟩).width
            + ((alignRowWrapStart W items).get ⟨i + 1, h⟩).width > W
        then 0
        else ((alignRowWrapStart W items).get ⟨i, Nat.lt_of_succ_lt h⟩).x
            + ((alignRowWrapStart W items).get ⟨i, Nat.lt_of_succ_lt h⟩).width) ∧
    alignRowWrapStart 100 [⟨0, 0, 60, h0⟩, ⟨0, 0, 60, h1⟩, ⟨0, 0, 60, h2⟩, ⟨0, 0, 60, h3⟩]
      = [⟨0, 0, 60, h0⟩, ⟨0, h0, 60, h1⟩, ⟨0, h0 + h1, 60, h2⟩, ⟨0, h0 + h1 + h2, 60, h3⟩] ∧
    ((0 : ℚ) < h0 ∧ h0 < h0 + h1 ∧ h0 + h1 < h0 + h1 + h2) := by
  refine ⟨alignRowWrapStartGo_consecutive W items 0 0 0 i h, ?_,
    ⟨by linarith, by linarith, by linarith⟩⟩
  have e0 : max h0 0 = h0 := max_eq_left hp0.le
  have e1 : max h1 0 = h1 := max_eq_left hp1.le
  have e2 : max h2 0 = h2 := max_eq_left hp2.le
  norm_num [alignRowWrapStart, alignRowWrapStartGo, e0, e1, e2]

/-- Witness for `alignRowWrapStart_greedy` at four width-60 children of
height 10 in a 100-wide container. -/
theorem alignRowWrapStart_greedy_witness :
    alignRowWrapStart 100 [⟨0, 0, 60, 10⟩, ⟨0, 0, 60, 10⟩, ⟨0, 0, 60, 10⟩, ⟨0, 0, 60, 10⟩]
      = [⟨0, 0, 60, 10⟩, ⟨0, 10, 60, 10⟩, ⟨0, 10 + 10, 60, 10⟩, ⟨0, 10 + 10 + 10, 60, 10⟩] :=
  (alignRowWrapStart_greedy 100 [⟨0, 0, 60, 10⟩, ⟨0, 0, 60, 10⟩, ⟨0, 0, 60, 10⟩, ⟨0, 0, 60, 10⟩] 0
    (by norm_num [alignRowWrapStart, alignRowWrapStartGo])
    10 10 10 10 (by norm_num) (by norm_num) (by norm_num) (by norm_num)).2.1

/-- Width/height projections distribute over append. -/
theorem sizesOf_append (a b : List Item) : sizesOf (a ++ b) = sizesOf a ++ sizesOf b := by
  simp [sizesOf]

/-- Width/height projections distribute over reverse. -/
theorem sizesOf_reverse (l : List Item) : sizesOf l.reverse = (sizesOf l).reverse := by
  simp [sizesOf]

/-- Width/height projections distribute over flatten. -/
theorem sizesOf_flatten (L : List (List Item)) :
    sizesOf L.flatten = (L.map sizesOf).flatten := by
  induction L with
  | nil => rfl
  | cons r rest ih => simp [sizesOf_append, ih]

theorem sizesOf_nil : sizesOf [] = [] := rfl

theorem sizesOf_cons (c : Item) (l : List Item) :
    sizesOf (c :: l) = (c.width, c.height) :: sizesOf l := rfl

/-- A map that rewrites only the x field preserves sizes. -/
theorem sizesOf_map_shift (off : ℚ) (l : List Item) :
    sizesOf (l.map fun d => { d with x := d.x + off }) = sizesOf l := by
  induction l with
  | nil => rfl
  | cons a rest ih => simp [sizesOf_cons, ih]

/-- A map that rewrites only the y field preserves sizes. -/
theorem sizesOf_map_sety (p : ℚ) (l : List Item) :
    sizesOf (l.map fun d => { d with y := p }) = sizesOf l := by
  induction l with
  | nil => rfl
  | cons a rest ih => simp [sizesOf_cons, ih]

/-- An indexed map that rewrites only the x field preserves sizes. -/
theorem sizesOf_mapIdx_x (f : ℕ → Item → ℚ) (l : List Item) :
    sizesOf (l.mapIdx fun k d => { d with x := f k d }) = sizesOf l := by
  induction l generalizing f with
  | nil => rfl
  | cons a rest ih =>
    simp only [List.mapIdx_cons, sizesOf, List.map_cons]
    exact congrArg _ (ih fun k d => f (k + 1) d)

theorem sizesOf_sbMidClose (s : ℚ) (line : List Item) :
    sizesOf (sbMidClose s line) = sizesOf line :=
  sizesOf_mapIdx_x (fun k d => d.x + s / ((line.length : ℚ) - 1) * (k : ℚ)) line

theorem sizesOf_sbFinalClose (s : ℚ) (line : List Item) :
    sizesOf (sbFinalClose s line) = sizesOf line :=
  sizesOf_mapIdx_x
    (fun k d => d.x + (if (line.length : ℚ) - 1 > 0 then s / ((line.length : ℚ) - 1) else s) * (k : ℚ))
    line

theorem sizesOf_saLine (s L : ℚ) (l : List Item) (tmp : ℚ) :
    sizesOf (saLine s L tmp l) = sizesOf l := by
  induction l generalizing tmp with
  | nil => rfl
  | cons a rest ih => simp [saLine, sizesOf_cons, ih]

theorem sizesOf_seLine (s L : ℚ) (l : List Item) (tmp : ℚ) :
    sizesOf (seLine s L tmp l) = sizesOf l := by
  induction l generalizing tmp with
  | nil => rfl
  | cons a rest ih => simp [seLine, sizesOf_cons, ih]

theorem sizesOf_alignFlexColumnGo (y : ℚ) (l : List Item) :
    sizesOf (alignFlexColumnGo y l) = sizesOf l := by
  induction l generalizing y with
  | nil => rfl
  | cons c rest ih => simp [alignFlexColumnGo, sizesOf] at *; exact ih _

theorem sizesOf_alignNowrapStartGo (x : ℚ) (l : List Item) :
    sizesOf (alignNowrapStartGo x l) = sizesOf l := by
  induction l generalizing x with
  | nil => rfl
  | cons c rest ih => simp [alignNowrapStartGo, sizesOf] at *; exact ih _

theorem sizesOf_alignNowrapEndGo (W x : ℚ) (l : List Item) :
    sizesOf (alignNowrapEndGo W x l) = sizesOf l := by
  induction l generalizing x with
  | nil => rfl
  | cons c rest ih => simp [alignNowrapEndGo, sizesOf] at *; exact ih _

theorem sizesOf_alignNowrapCenterGo (off x : ℚ) (l : List Item) :
    sizesOf (alignNowrapCenterGo off x l) = sizesOf l := by
  induction l generalizing x with
  | nil => rfl
  | cons c rest ih => simp [alignNowrapCenterGo, sizesOf] at *; exact ih _

theorem sizesOf_alignNowrapSpaceBetweenGo (gap x : ℚ) (l : List Item) :
    sizesOf (alignNowrapSpaceBetweenGo gap x l) = sizesOf l := by
  induction l generalizing x with
  | nil => rfl
  | cons c rest ih => simp [alignNowrapSpaceBetweenGo, sizesOf] at *; exact ih _

theorem sizesOf_alignNowrapSpaceAroundGo (lead gap x : ℚ) (l : List Item) :
    sizesOf (alignNowrapSpaceAroundGo lead gap x l) = sizesOf l := by
  induction l generalizing x with
  | nil => rfl
  | cons c rest ih => simp [alignNowrapSpaceAroundGo, sizesOf] at *; exact ih _

theorem sizesOf_alignNowrap (W : ℚ) (jc : JustifyContent) (l : List Item) :
    sizesOf (alignNowrap W jc l) = sizesOf l := by
  cases jc <;>
    simp [alignNowrap, sizesOf_alignNowrapStartGo, sizesOf_alignNowrapEndGo,
      sizesOf_alignNowrapCenterGo, sizesOf_alignNowrapSpaceBetweenGo,
      sizesOf_alignNowrapSpaceAroundGo, sizesOf_reverse]

theorem sizesOf_alignRowWrapStartGo (W x y maxH : ℚ) (l : List Item) :
    sizesOf (alignRowWrapStartGo W x y maxH l) = sizesOf l := by
  induction l generalizing x y maxH with
  | nil => rfl
  | cons c rest ih =>
    by_cases hc : x + c.width > W <;>
      · simp [alignRowWrapStartGo, hc, sizesOf] at *
        exact ih _ _ _

theorem sizesOf_alignRowWrapEndGo (W : ℚ) (l : List Item) (x y maxH : ℚ) (line : List Item) :
    sizesOf (alignRowWrapEndGo W x y maxH line l) = sizesOf line ++ sizesOf l := by
  induction l generalizing x y maxH line with
  | nil => simp [alignRowWrapEndGo, sizesOf_map_shift, sizesOf_nil]
  | cons c rest ih =>
    by_cases hc : x + c.width > W
    · simp [alignRowWrapEndGo, hc, sizesOf_append, sizesOf_map_shift, ih, sizesOf_cons, sizesOf_nil]
    · simp [alignRowWrapEndGo, hc, ih, sizesOf_append, sizesOf_cons, sizesOf_nil]

theorem sizesOf_alignRowWrapCenterGo (W : ℚ) (l : List Item) (x y maxH : ℚ) (line : List Item) :
    sizesOf (alignRowWrapCenterGo W x y maxH line l) = sizesOf line ++ sizesOf l := by
  induction l generalizing x y maxH line with
  | nil => simp [alignRowWrapCenterGo, sizesOf_map_shift, sizesOf_nil]
  | cons c rest ih =>
    by_cases hc : x + c.width > W
    · simp [alignRowWrapCenterGo, hc, sizesOf_append, sizesOf_map_shift, ih, sizesOf_cons, sizesOf_nil]
    · simp [alignRowWrapCenterGo, hc, ih, sizesOf_append, sizesOf_cons, sizesOf_nil]

theorem sizesOf_alignRowWrapSpaceBetweenGo (W : ℚ) (l : List Item) (x y maxH : ℚ)
    (line : List Item) :
    sizesOf (alignRowWrapSpaceBetweenGo W x y maxH line l) = sizesOf line ++ sizesOf l := by
  induction l generalizing x y maxH line with
  | nil => simp [alignRowWrapSpaceBetweenGo, sizesOf_sbFinalClose, sizesOf_nil]
  | cons c rest ih =>
    by_cases hc : x + c.width > W
    · simp [alignRowWrapSpaceBetweenGo, hc, sizesOf_append, sizesOf_sbMidClose, ih, sizesOf_cons, sizesOf_nil]
    · simp [alignRowWrapSpaceBetweenGo, hc, ih, sizesOf_append, sizesOf_cons, sizesOf_nil]

theorem sizesOf_alignRowWrapSpaceAroundGo (W : ℚ) (l : List Item) (x y maxH : ℚ)
    (line : List Item) :
    sizesOf (alignRowWrapSpaceAroundGo W x y maxH line l) = sizesOf line ++ sizesOf l := by
  induction l generalizing x y maxH line with
  | nil => simp [alignRowWrapSpaceAroundGo, sizesOf_saLine, sizesOf_nil]
  | cons c rest ih =>
    by_cases hc : x + c.width > W
    · simp [alignRowWrapSpaceAroundGo, hc, sizesOf_append, sizesOf_saLine, ih, sizesOf_cons, sizesOf_nil]
    · simp [alignRowWrapSpaceAroundGo, hc, ih, sizesOf_append, sizesOf_cons, sizesOf_nil]

theorem sizesOf_alignRowWrapSpaceEvenlyGo (W : ℚ) (l : List Item) (x y maxH : ℚ)
    (line : List Item) :
    sizesOf (alignRowWrapSpaceEvenlyGo W x y maxH line l) = sizesOf line ++ sizesOf l := by
  induction l generalizing x y maxH line with
  | nil => simp [alignRowWrapSpaceEvenlyGo, sizesOf_seLine, sizesOf_nil]
  | cons c rest ih =>
    by_cases hc : x + c.width > W
    · simp [alignRowWrapSpaceEvenlyGo, hc, sizesOf_append, sizesOf_seLine, ih, sizesOf_cons, sizesOf_nil]
    · simp [alignRowWrapSpaceEvenlyGo, hc, ih, sizesOf_append, sizesOf_cons, sizesOf_nil]

theorem sizesOf_alignRowWrap (W : ℚ) (jc : JustifyContent) (l : List Item) :
    sizesOf (alignRowWrap W jc l) = sizesOf l := by
  cases jc <;>
    simp [alignRowWrap, alignRowWrapStart, alignRowWrapEnd, alignRowWrapCenter,
      alignRowWrapSpaceBetween, alignRowWrapSpaceAround, alignRowWrapSpaceEvenly,
      sizesOf_alignRowWrapStartGo, sizesOf_alignRowWrapEndGo, sizesOf_alignRowWrapCenterGo,
      sizesOf_alignRowWrapSpaceBetweenGo, sizesOf_alignRowWrapSpaceAroundGo,
      sizesOf_alignRowWrapSpaceEvenlyGo, sizesOf_nil]

/-- Flattened sizes of the wrap-reverse row partition: the rows concatenate to
the accumulated row followed by the remaining items. -/
theorem sizesOf_rowReverseBuild (W : ℚ) (l : List Item) (x : ℚ) (row : List Item) :
    ((rowReverseBuild W x row l).map sizesOf).flatten = sizesOf row ++ sizesOf l := by
  induction l generalizing x row with
  | nil => simp [rowReverseBuild, sizesOf_nil]
  | cons c rest ih =>
    by_cases hc : x + c.width > W
    · simp [rowReverseBuild, hc, ih, sizesOf_append, sizesOf_cons, sizesOf_nil]
    · simp [rowReverseBuild, hc, ih, sizesOf_append, sizesOf_cons, sizesOf_nil]

/-- The y-assignment loop of `alignRowReverse` preserves each row's sizes. -/
theorem map_sizesOf_rowReverseAssignY (rows : List (List Item)) (p : ℚ) :
    (rowReverseAssignY p rows).map sizesOf = rows.map sizesOf := by
  induction rows generalizing p with
  | nil => rfl
  | cons r rest ih => simp [rowReverseAssignY, sizesOf_map_sety, ih]

theorem sizesOf_alignRowReverse (W : ℚ) (l : List Item) :
    sizesOf (alignRowReverse W l) = sizesOf l := by
  unfold alignRowReverse
  rw [sizesOf_flatten, List.map_reverse, map_sizesOf_rowReverseAssignY, List.map_reverse,
    List.reverse_reverse, sizesOf_rowReverseBuild]
  simp [sizesOf_nil]

theorem sizesOf_alignFlexRow (W : ℚ) (fw : FlexWrap) (jc : JustifyContent) (l : List Item) :
    sizesOf (alignFlexRow W fw jc l) = sizesOf l := by
  cases fw <;>
    simp [alignFlexRow, sizesOf_alignRowReverse, sizesOf_alignRowWrap, sizesOf_alignNowrap]

/-- C10: the flex align resolver only assigns positions — for every direction,
wrap mode and justification, a successful update leaves every child's width
and height exactly as it was, in the original order. -/
theorem flexAlign_preserves_sizes (fd : FlexDirection) (fw : FlexWrap) (jc : JustifyContent)
    (rootWidth : ℚ) (items out : List Item)
    (h : FlexAlignController.update fd fw jc rootWidth items = .ok out) :
    sizesOf out = sizesOf items := by
  cases fd with
  | row =>
    simp only [FlexAlignController.update, Except.ok.injEq] at h
    subst h
    exact sizesOf_alignFlexRow rootWidth fw jc items
  | rowReverse =>
    simp only [FlexAlignController.update, Except.ok.injEq] at h
    subst h
    rw [sizesOf_reverse, sizesOf_alignFlexRow, sizesOf_reverse, List.reverse_reverse]
  | column =>
    simp only [FlexAlignController.update, Except.ok.injEq] at h
    subst h
    exact sizesOf_alignFlexColumnGo 0 items
  | columnReverse =>
    simp only [FlexAlignController.update, Except.ok.injEq] at h
    subst h
    rw [sizesOf_reverse]
    rw [show sizesOf (alignFlexColumn items.reverse) = sizesOf items.reverse from
      sizesOf_alignFlexColumnGo 0 items.reverse]
    rw [sizesOf_reverse, List.reverse_reverse]
  | other s => simp [FlexAlignController.update] at h

/-- Witness for `flexAlign_preserves_sizes` at a concrete column update. -/
theorem flexAlign_preserves_sizes_witness :
    sizesOf (alignFlexColumn [⟨7, 3, 10, 20⟩]) = sizesOf [⟨7, 3, 10, 20⟩] :=
  flexAlign_preserves_sizes .column .nowrap .start 100 [⟨7, 3, 10, 20⟩]
    (alignFlexColumn [⟨7, 3, 10, 20⟩]) rfl

end LayoutVerify
